import Mathlib

/-!
Verification development for the mcpews WebSocket protocol library.

The definitions below are a shallow embedding of the library's session
engine (`src/lib/base.ts`), the server role (`src/lib/server.ts`), the
client role (`src/lib/client.ts`), the encryption layer
(`src/lib/encrypt.ts`) and the high-level async facade (`src/lib/app.ts`).
JavaScript objects are modelled with a small JSON value type, JavaScript
`Map`s with association lists, and the event-emitter side effects of the
dispatch loop with an explicit trace of dispatch events.
-/

set_option autoImplicit false

/-- JSON-like value used for frame bodies, mirroring the untyped payloads
the library passes around. -/
inductive JVal where
  | null : JVal
  | bool (b : Bool) : JVal
  | num (n : Int) : JVal
  | str (s : String) : JVal
  | obj (fields : List (String × JVal)) : JVal

/-- First value stored under a key in an association list, mirroring
`Map.get` (`undefined` is `none`). -/
def getKey {α : Type} (k : String) : List (String × α) → Option α
  | [] => none
  | (k', v) :: rest => if k' = k then some v else getKey k rest

/-- Field lookup on a JSON object, mirroring JavaScript member access on a
parsed body; access on a non-object yields undefined (`none`). -/
def JVal.getField : JVal → String → Option JVal
  | .obj fields, k => getKey k fields
  | _, _ => none

/-- JavaScript truthiness for an optional JSON value (`undefined` is falsy,
as are `null`, `false`, `0` and the empty string). -/
def jsTruthy : Option JVal → Bool
  | none => false
  | some .null => false
  | some (.bool b) => b
  | some (.num n) => n != 0
  | some (.str s) => s != ""
  | some (.obj _) => true

/-- An inbound frame as destructured by the `Session` message listener:
`purpose` is `header.messagePurpose`, `requestId` is `header.requestId`. -/
structure Frame where
  purpose : String
  requestId : String
  body : JVal

/-- The sentinel all-zeros UUID used when `sendFrame` is given no
`requestId`. -/
def sentinelUUID : String := "00000000-0000-0000-0000-000000000000"

/-- An outbound frame as built by `Session.sendFrame`: header version,
request id (sentinel when absent), purpose, extra header fields, body. -/
structure SentFrame where
  version : Int
  requestId : String
  purpose : String
  extraHeaders : List (String × JVal)
  body : JVal

/-- Result of running a responder or purpose handler on a frame: either it
returns (`true`, `false` or `undefined`, modelled by `Option Bool`) or it
throws. `calls` records the user callbacks the handler invoked before
returning or throwing, as pairs of a callback identifier and the frame the
callback received. -/
inductive BRes where
  | ret (calls : List (Nat × Frame)) (r : Option Bool) : BRes
  | thrown (calls : List (Nat × Frame)) (e : String) : BRes

/-- A responder or purpose handler, as stored in the session's maps. -/
def Behavior := Frame → BRes

/-- Observable dispatch events of the session message listener: the generic
`message` emission, an `error` emission from a caught handler exception, an
invocation of a user callback, the start of a responder or purpose-handler
invocation, and the `customFrame` fallback emission. -/
inductive DEvent where
  | message (f : Frame) : DEvent
  | errorEvent (e : String) : DEvent
  | callback (id : Nat) (f : Frame) : DEvent
  | responderRan (requestId : String) : DEvent
  | handlerRan (purpose : String) : DEvent
  | customFrame (f : Frame) : DEvent

/-- Removes the first entry with the given key from an association list,
mirroring `Map.delete`. -/
def eraseKey {α : Type} (k : String) : List (String × α) → List (String × α)
  | [] => []
  | (k', v) :: rest => if k' = k then rest else (k', v) :: eraseKey k rest

/-- Replaces the value stored under a key, or appends the binding when the
key is absent, mirroring `Map.set`. -/
def setKey {α : Type} (l : List (String × α)) (k : String) (v : α) : List (String × α) :=
  match l with
  | [] => [(k, v)]
  | (k', v') :: rest => if k' = k then (k, v) :: rest else (k', v') :: setKey rest k v

/-- Session dispatch state: the responder map (keyed by request id) and
the purpose handler map of `Session` in `src/lib/base.ts`. -/
structure SessionState where
  responders : List (String × Behavior)
  handlers : List (String × Behavior)

/-- Callback-invocation events generated by one handler run. -/
def callsEvents (cs : List (Nat × Frame)) : List DEvent :=
  cs.map fun c => DEvent.callback c.1 c.2

/-- The purpose-handler stage of the message listener: look up
`handlerMap.get(frame.purpose)`; a boolean return consumes the frame
(deleting the handler when `true`); a non-boolean return or a throw (which
also emits `error`) falls through to the `customFrame` emission. -/
def handlerStage (st : SessionState) (f : Frame) : List DEvent × SessionState :=
  match getKey f.purpose st.handlers with
  | none => ([DEvent.customFrame f], st)
  | some h =>
    match h f with
    | .ret cs (some true) =>
      (DEvent.handlerRan f.purpose :: callsEvents cs,
        { st with handlers := eraseKey f.purpose st.handlers })
    | .ret cs (some false) => (DEvent.handlerRan f.purpose :: callsEvents cs, st)
    | .ret cs none =>
      (DEvent.handlerRan f.purpose :: (callsEvents cs ++ [DEvent.customFrame f]), st)
    | .thrown cs e =>
      (DEvent.handlerRan f.purpose :: (callsEvents cs ++ [DEvent.errorEvent e, DEvent.customFrame f]), st)

/-- The `socket.on('message', ...)` dispatch of `Session`: emit `message`,
then look up `responserMap.get(frame.requestId)`; a boolean return ends
dispatch (deleting the responder when `true`); a non-boolean return or a
throw (which also emits `error`) falls through to the handler stage. -/
def dispatchFrame (st : SessionState) (f : Frame) : List DEvent × SessionState :=
  match getKey f.requestId st.responders with
  | none =>
    let r := handlerStage st f
    (DEvent.message f :: r.1, r.2)
  | some resp =>
    match resp f with
    | .ret cs (some true) =>
      (DEvent.message f :: DEvent.responderRan f.requestId :: callsEvents cs,
        { st with responders := eraseKey f.requestId st.responders })
    | .ret cs (some false) =>
      (DEvent.message f :: DEvent.responderRan f.requestId :: callsEvents cs, st)
    | .ret cs none =>
      let r := handlerStage st f
      (DEvent.message f :: DEvent.responderRan f.requestId :: (callsEvents cs ++ r.1), r.2)
    | .thrown cs e =>
      let r := handlerStage st f
      (DEvent.message f :: DEvent.responderRan f.requestId ::
        (callsEvents cs ++ DEvent.errorEvent e :: r.1), r.2)

/-- Dispatch of a whole inbound frame sequence, in wire-arrival order. -/
def dispatchFrames (st : SessionState) : List Frame → List DEvent × SessionState
  | [] => ([], st)
  | f :: rest =>
    let r := dispatchFrame st f
    let r2 := dispatchFrames r.2 rest
    (r.1 ++ r2.1, r2.2)

/-- Frames passed to a given user callback within an event trace. -/
def callsTo (k : Nat) (evs : List DEvent) : List Frame :=
  evs.filterMap fun e =>
    match e with
    | .callback k' f => if k' = k then some f else none
    | _ => none

/-- Number of `customFrame` emissions in a trace. -/
def countCustom (evs : List DEvent) : Nat :=
  evs.countP fun e => match e with | .customFrame _ => true | _ => false

/-- Number of `error` emissions in a trace. -/
def countErrors (evs : List DEvent) : Nat :=
  evs.countP fun e => match e with | .errorEvent _ => true | _ => false

/-- Number of purpose-handler invocations for a given purpose in a trace. -/
def countHandlerRan (p : String) (evs : List DEvent) : Nat :=
  evs.countP fun e => match e with | .handlerRan p' => p' = p | _ => false

/-- UUIDv4 shape check: 36 characters, hyphens at positions 8, 13, 18 and
23, version nibble `4` at position 14 and variant nibble in `8 9 a b` at
position 19, all other positions lowercase hex. This is the format
produced by the `randomUUID` function of the crypto runtime that
`sendCommand` and `enableEncryption` call. -/
def isUUIDv4 (s : String) : Bool :=
  let cs := s.toList
  cs.length = 36 &&
  (List.range 36).all fun i =>
    let c := cs.getD i ' '
    if i = 8 || i = 13 || i = 18 || i = 23 then c = '-'
    else if i = 14 then c = '4'
    else if i = 19 then c = '8' || c = '9' || c = 'a' || c = 'b'
    else c.isDigit || (c ≥ 'a' && c ≤ 'f')

/-- A command line argument of `sendCommand`: either a string or an array
of tokens. -/
inductive CommandLineArg where
  | str (s : String) : CommandLineArg
  | arr (xs : List String) : CommandLineArg

/-- Mirrors `Array.isArray(command) ? command.join(' ') : command` in
`ServerSession.sendCommandRaw`. -/
def resolveCommandLine : CommandLineArg → String
  | .str s => s
  | .arr xs => String.intercalate " " xs

/-- The body built by `ServerSession.sendCommandRaw`: command version,
command line and player origin. -/
def commandRequestBody (line : String) : JVal :=
  .obj [("version", .num 1), ("commandLine", .str line), ("origin", .obj [("type", .str "player")])]

/-- Mirrors `ServerSession.sendCommandRaw`: one `commandRequest` frame
carrying the (possibly joined) command line under the given request id. -/
def sendCommandRaw (version : Int) (requestId : String) (command : CommandLineArg) : SentFrame :=
  { version := version
    requestId := requestId
    purpose := "commandRequest"
    extraHeaders := []
    body := commandRequestBody (resolveCommandLine command) }

/-- Mirrors `Session.setResponser`: registering fails (the source throws)
when the request id is already registered; otherwise the responder is
added to the map. -/
def setResponser (st : SessionState) (requestId : String) (b : Behavior) : Option SessionState :=
  match getKey requestId st.responders with
  | some _ => none
  | none => some { st with responders := st.responders ++ [(requestId, b)] }

/-- Mirrors `Session.clearResponser` and `ServerSession.cancelCommandRequest`:
removes the responder registered under the request id. -/
def cancelCommandRequest (st : SessionState) (requestId : String) : SessionState :=
  { st with responders := eraseKey requestId st.responders }

/-- The responder that `ServerSession.sendCommand` registers: on a frame of
purpose `commandResponse` it invokes the user callback with the frame and
returns `true`; on any other frame it returns undefined. -/
def commandResponder (cb : Nat) : Behavior := fun f =>
  if f.purpose = "commandResponse" then .ret [(cb, f)] (some true) else .ret [] none

/-- Mirrors `ServerSession.sendCommand`: generates a request id (passed here
explicitly, standing for the `randomUUID()` call), registers the
command responder when a callback is given, and sends the
`commandRequest` frame. Registration throws on a duplicate request id. -/
def sendCommand (st : SessionState) (version : Int) (requestId : String)
    (command : CommandLineArg) (cb : Option Nat) :
    Except String (List SentFrame × SessionState) :=
  match cb with
  | none => .ok ([sendCommandRaw version requestId command], st)
  | some k =>
    match setResponser st requestId (commandResponder k) with
    | none => .error "Cannot attach responser to request"
    | some st2 => .ok ([sendCommandRaw version requestId command], st2)

/-- The purpose handler for `commandResponse` that the `ServerSession`
constructor registers: it emits the session-level `commandResponse` event
(not tracked in the dispatch trace), invokes no user callback, and returns
`false`, keeping itself registered. -/
def commandResponseHandler : Behavior := fun _ => .ret [] (some false)

/-- Event-subscription listener table of `ServerSession`: event name to the
set of listeners, each listener named by an identifier. -/
def ListenerTable := List (String × List Nat)

/-- Mirrors `Set.add`: appends the element when it is not yet present. -/
def insertSet (s : List Nat) (x : Nat) : List Nat :=
  if x ∈ s then s else s ++ [x]

/-- The `subscribe` frame sent by `ServerSession.subscribeRaw`. -/
def subscribeFrame (version : Int) (eventName : String) : SentFrame :=
  { version := version
    requestId := sentinelUUID
    purpose := "subscribe"
    extraHeaders := []
    body := .obj [("eventName", .str eventName)] }

/-- The `unsubscribe` frame sent by `ServerSession.unsubscribeRaw`. -/
def unsubscribeFrame (version : Int) (eventName : String) : SentFrame :=
  { version := version
    requestId := sentinelUUID
    purpose := "unsubscribe"
    extraHeaders := []
    body := .obj [("eventName", .str eventName)] }

/-- Mirrors `ServerSession.subscribe`: when the event has no listener set
yet, a fresh set is created and one `subscribe` frame is sent; in both
cases the listener is added to the set. Returns the sent frames and the
updated table. -/
def subscribe (version : Int) (t : ListenerTable) (eventName : String) (listener : Nat) :
    List SentFrame × ListenerTable :=
  match getKey eventName t with
  | none => ([subscribeFrame version eventName], setKey t eventName [listener])
  | some s => ([], setKey t eventName (insertSet s listener))

/-- Mirrors `ServerSession.unsubscribe`: with no listener set nothing
happens; otherwise the listener is removed, and when the set becomes empty
the entry is deleted and one `unsubscribe` frame is sent. -/
def unsubscribe (version : Int) (t : ListenerTable) (eventName : String) (listener : Nat) :
    List SentFrame × ListenerTable :=
  match getKey eventName t with
  | none => ([], t)
  | some s =>
    let s2 := s.erase listener
    if s2 = [] then ([unsubscribeFrame version eventName], eraseKey eventName t)
    else ([], setKey t eventName s2)

/-- Per-event publish gate of `WSClient` (`eventListenMap`): event name to
boolean, `Map.get` yielding `none` when the name was never seen. -/
def GateMap := List (String × Bool)

/-- Truthiness of a `Map.get` result of the boolean gate map. -/
def gateTruthy : Option Bool → Bool
  | some true => true
  | _ => false

/-- Client-role emissions observable in the gate model. -/
inductive ClientEvent where
  | subscribeEvt (eventName : String) : ClientEvent
  | unsubscribeEvt (eventName : String) : ClientEvent

/-- Mirrors the `subscribe` purpose handler of `WSClient`: when the gate is
not truthy, the `subscribe` event is emitted and the gate is set to
`true`; a redundant subscribe does nothing. -/
def clientSubscribeStep (g : GateMap) (eventName : String) : List ClientEvent × GateMap :=
  if gateTruthy (getKey eventName g) then ([], g)
  else ([ClientEvent.subscribeEvt eventName], setKey g eventName true)

/-- Mirrors the `unsubscribe` purpose handler of `WSClient`: when the gate
is truthy, the `unsubscribe` event is emitted and the gate is set to
`false`; otherwise nothing happens. -/
def clientUnsubscribeStep (g : GateMap) (eventName : String) : List ClientEvent × GateMap :=
  if gateTruthy (getKey eventName g) then
    ([ClientEvent.unsubscribeEvt eventName], setKey g eventName false)
  else ([], g)

/-- An inbound subscription-control frame received by the client, reduced
to its effect on the gate. -/
inductive SubOp where
  | sub (eventName : String) : SubOp
  | unsub (eventName : String) : SubOp

/-- Gate-map effect of one inbound subscribe or unsubscribe frame. -/
def applySubOp (g : GateMap) : SubOp → GateMap
  | .sub n => (clientSubscribeStep g n).2
  | .unsub n => (clientUnsubscribeStep g n).2

/-- Gate map after the client has processed a whole history of inbound
subscribe and unsubscribe frames, starting from the empty map. -/
def runSubOps (ops : List SubOp) : GateMap :=
  ops.foldl applySubOp []

/-- Effect of one observed subscribe or unsubscribe frame on the
spec-level subscribed status of one event name. -/
def specStep (eventName : String) (acc : Bool) : SubOp → Bool
  | .sub n => if n = eventName then true else acc
  | .unsub n => if n = eventName then false else acc

/-- Modelled from the spec sentence for the gate invariant: the peer has
previously sent a subscribe for the name and has not subsequently sent an
unsubscribe for it. -/
def specSubscribed (ops : List SubOp) (eventName : String) : Bool :=
  ops.foldl (specStep eventName) false

/-- Mirrors `WSClient.sendEvent`: from `V1_1_0` (`0x1010000`) on, the event
name travels in the header; below, it is merged into the body. -/
def sendEvent (version : Int) (eventName : String) (body : List (String × JVal)) : SentFrame :=
  if version ≥ 0x1010000 then
    { version := version
      requestId := sentinelUUID
      purpose := "event"
      extraHeaders := [("eventName", .str eventName)]
      body := .obj body }
  else
    { version := version
      requestId := sentinelUUID
      purpose := "event"
      extraHeaders := []
      body := .obj (setKey body "eventName" (.str eventName)) }

/-- Mirrors `WSClient.publishEvent`: the event frame is sent only while the
gate for the event name is truthy. -/
def publishEvent (version : Int) (g : GateMap) (eventName : String)
    (body : List (String × JVal)) : List SentFrame :=
  if gateTruthy (getKey eventName g) then [sendEvent version eventName body] else []

/-- Dispatch decision of the `commandRequest` purpose handler of
`WSClient`: a truthy `body.commandLine` is emitted as the `command` event
carrying the command line, anything else as `commandLegacy`. -/
inductive CmdDispatch where
  | commandEvt (commandLine : JVal) : CmdDispatch
  | commandLegacyEvt : CmdDispatch

/-- Mirrors the `if ((body as CommandRequestBody).commandLine)` branch of
the client-role `commandRequest` handler. -/
def clientCommandDispatch (body : JVal) : CmdDispatch :=
  if jsTruthy (body.getField "commandLine") then
    .commandEvt ((body.getField "commandLine").getD .null)
  else .commandLegacyEvt

/-- The `handleEncryptionHandshake` closure attached to `commandLegacy`
frames: it unconditionally throws `Not supported`. -/
def legacyHandshake : Except String Bool := .error "Not supported"

/-- Decision of `WSClient.handleEncryptionHandshake` on a `command` frame:
the handshake is performed (keys derived, response sent, encryption
activated, `true` returned) exactly when the command line starts with the
literal `enableencryption `; otherwise it returns `false`. -/
def commandHandshakeAccepts (commandLine : String) : Bool :=
  commandLine.startsWith "enableencryption "

/-- The wire cipher modes of the protocol (`EncryptionMode` in
`src/lib/protocol.ts`): `cfb8`, `cfb` and the deprecated alias `cfb128`. -/
inductive EncryptionMode where
  | aes256cfb8 : EncryptionMode
  | aes256cfb : EncryptionMode
  | aes256cfb128 : EncryptionMode

/-- The `cipherAlgorithms` table of `src/lib/encrypt.ts`: `cfb8` selects
AES-256-CFB8 and both `cfb` and `cfb128` select AES-256-CFB. -/
def usesCfb8 : EncryptionMode → Bool
  | .aes256cfb8 => true
  | .aes256cfb => false
  | .aes256cfb128 => false

/-- One step of the AES-CFB8 stream cipher of the crypto runtime, modelled
over an abstract block-encryption function: the keystream byte is the
first byte of the block function applied to the 16-byte shift register,
and the register shifts the ciphertext byte in. Encryption direction. -/
def cfb8EncBytes (B : List Nat → List Nat) : List Nat → List Nat → List Nat
  | _, [] => []
  | reg, p :: ps =>
    let c := p ^^^ (B reg).headD 0
    c :: cfb8EncBytes B (reg.tail ++ [c]) ps

/-- AES-CFB8 decryption direction: same keystream, register also shifts the
ciphertext byte in. -/
def cfb8DecBytes (B : List Nat → List Nat) : List Nat → List Nat → List Nat
  | _, [] => []
  | reg, c :: cs =>
    (c ^^^ (B reg).headD 0) :: cfb8DecBytes B (reg.tail ++ [c]) cs

/-- AES-CFB (128-bit feedback) streaming encryption of the crypto runtime
with auto padding disabled: keystream bytes come from the block function
applied to the register; after 16 ciphertext bytes the register is
replaced by that ciphertext block. `pend` holds the ciphertext bytes of
the current partial block. -/
def cfbEncBytes (B : List Nat → List Nat) : List Nat → List Nat → List Nat → List Nat
  | _, _, [] => []
  | reg, pend, p :: ps =>
    let c := p ^^^ (B reg).getD pend.length 0
    let pend2 := pend ++ [c]
    if pend2.length = 16 then c :: cfbEncBytes B pend2 [] ps
    else c :: cfbEncBytes B reg pend2 ps

/-- AES-CFB streaming decryption direction. -/
def cfbDecBytes (B : List Nat → List Nat) : List Nat → List Nat → List Nat → List Nat
  | _, _, [] => []
  | reg, pend, c :: cs =>
    let p := c ^^^ (B reg).getD pend.length 0
    let pend2 := pend ++ [c]
    if pend2.length = 16 then p :: cfbDecBytes B pend2 [] cs
    else p :: cfbDecBytes B reg pend2 cs

/-- Stateful cipher pair created by `Encryption.initializeCipher`: the
mode, the keyed block function shared by cipher and decipher, and the
shared initialisation vector. -/
structure CipherPair where
  mode : EncryptionMode
  block : List Nat → List Nat
  iv : List Nat

/-- Mirrors `Encryption.initializeCipher`: the symmetric key is the
SHA-256 hash of the salt concatenated with the ECDH shared secret, the IV
is the first 16 bytes of that key, and cipher and decipher are created
from the same algorithm, key and IV with auto padding disabled. The hash
and the AES-256 block encryption come from the external crypto runtime
and enter as the abstract parameters `H` and `AES` (`AES` keyed first). -/
def initializeCipher (H : List Nat → List Nat) (AES : List Nat → List Nat → List Nat)
    (mode : EncryptionMode) (secretKey salt : List Nat) : CipherPair :=
  let key := H (salt ++ secretKey)
  { mode := mode, block := AES key, iv := key.take 16 }

/-- Mirrors `Encryption.encrypt` on the UTF-8 bytes of the JSON text. -/
def encryptBytes (cp : CipherPair) (bytes : List Nat) : List Nat :=
  if usesCfb8 cp.mode then cfb8EncBytes cp.block cp.iv bytes
  else cfbEncBytes cp.block cp.iv [] bytes

/-- Mirrors `Encryption.decrypt`. -/
def decryptBytes (cp : CipherPair) (bytes : List Nat) : List Nat :=
  if usesCfb8 cp.mode then cfb8DecBytes cp.block cp.iv bytes
  else cfbDecBytes cp.block cp.iv [] bytes

/-- Number field access for `body.statusCode` of a command response. -/
def getStatusCode (body : JVal) : Option Int :=
  match body.getField "statusCode" with
  | some (.num n) => some n
  | _ => none

/-- String field access for `body.statusMessage` of a command response. -/
def getStatusMessage (body : JVal) : Option String :=
  match body.getField "statusMessage" with
  | some (.str s) => some s
  | _ => none

/-- JavaScript `ToInt32` bit pattern of an integer, as an unsigned 32-bit
value; the `&` in the facade operates on this pattern. -/
def toUInt32 (n : Int) : Nat := (n % (2 ^ 32 : Int)).toNat

/-- Outcome of the response callback the async facade registers. -/
inductive CmdOutcome where
  | resolve (f : Frame) : CmdOutcome
  | rejectError (msg : Option String) : CmdOutcome

/-- Mirrors the response callback of `AppSession.command` and
`AppSession.commandLegacy`: resolve when `body.statusCode` is falsy or its
bit under the mask `1 << 31` is clear, otherwise reject with an error
whose message is `body.statusMessage`. -/
def appCommandCallback (f : Frame) : CmdOutcome :=
  match getStatusCode f.body with
  | none => .resolve f
  | some n =>
    if n = 0 then .resolve f
    else if (toUInt32 n).testBit 31 then .rejectError (getStatusMessage f.body)
    else .resolve f

/-- Encryption-related state of a `ServerSession`: the `exchangingKey` flag
and whether `this.encryption` is set (non-null). -/
structure EncState where
  exchangingKey : Bool
  encryptionActive : Bool

/-- JSON string literal of a quote-free string, as produced by
`JSON.stringify` on the base64 key and salt strings. -/
def jsonQuote (s : String) : String := "\"" ++ s ++ "\""

/-- The `ws:encrypt` request frame of `ServerSession.sendEncryptionRequest`. -/
def encryptionRequestFrame (version : Int) (requestId pub salt mode : String) : SentFrame :=
  { version := version
    requestId := requestId
    purpose := "ws:encrypt"
    extraHeaders := []
    body := .obj [("mode", .str mode), ("publicKey", .str pub), ("salt", .str salt)] }

/-- Mirrors `ServerSession.enableEncryption`: when a key exchange is
pending or encryption is already set, it returns `false` without sending
anything and without touching the state; otherwise it marks the key
exchange as pending and sends either the `ws:encrypt` request (version at
least `V1_0_0`) or the legacy `enableencryption` command, returning
`true`. The request id, public key and salt stand for the values the
crypto runtime generates; the registered completion responder is
modelled by `encStep`. -/
def enableEncryption (st : EncState) (version : Int) (requestId pub salt mode : String) :
    Bool × List SentFrame × EncState :=
  if st.exchangingKey || st.encryptionActive then (false, [], st)
  else
    let frames :=
      if version ≥ 0x1000000 then [encryptionRequestFrame version requestId pub salt mode]
      else [sendCommandRaw version requestId
        (.arr ["enableencryption", jsonQuote pub, jsonQuote salt, mode])]
    (true, frames, { st with exchangingKey := true })

/-- Operations of the server role that touch the encryption state: an
`enableEncryption` attempt, the completion responder of a key exchange
(which clears `exchangingKey` and calls `setEncryption`), and any
operation that leaves the encryption state alone. -/
inductive EncOp where
  | enable (version : Int) (requestId pub salt mode : String) : EncOp
  | complete : EncOp
  | unrelated : EncOp

/-- Effect of one role operation on the encryption state. -/
def encStep (st : EncState) : EncOp → EncState
  | .enable v rid pub salt mode => (enableEncryption st v rid pub salt mode).2.2
  | .complete => { exchangingKey := false, encryptionActive := true }
  | .unrelated => st


theorem getKey_setKey_self {α : Type} (l : List (String × α)) (k : String) (v : α) :
    getKey k (setKey l k v) = some v := by
  induction l with
  | nil => simp [setKey, getKey]
  | cons p rest ih =>
    obtain ⟨k0, v0⟩ := p
    by_cases h : k0 = k
    · simp [setKey, getKey, h]
    · simp [setKey, getKey, h, ih]

theorem getKey_setKey_ne {α : Type} (l : List (String × α)) (k k' : String) (v : α)
    (h : k' ≠ k) : getKey k' (setKey l k v) = getKey k' l := by
  induction l with
  | nil => simp [setKey, getKey, Ne.symm h]
  | cons p rest ih =>
    obtain ⟨k0, v0⟩ := p
    by_cases h0 : k0 = k
    · subst h0
      simp [setKey, getKey, Ne.symm h]
    · simp [setKey, getKey, h0, ih]

theorem getKey_append_of_none {α : Type} (l1 l2 : List (String × α)) (k : String)
    (h : getKey k l1 = none) : getKey k (l1 ++ l2) = getKey k l2 := by
  induction l1 with
  | nil => simp
  | cons p rest ih =>
    obtain ⟨k0, v0⟩ := p
    by_cases h0 : k0 = k
    · simp [getKey, h0] at h
    · simp [getKey, h0] at h ⊢
      exact ih h

theorem eraseKey_append_of_none {α : Type} (l : List (String × α)) (k : String) (v : α)
    (h : getKey k l = none) : eraseKey k (l ++ [(k, v)]) = l := by
  induction l with
  | nil => simp [eraseKey]
  | cons p rest ih =>
    obtain ⟨k0, v0⟩ := p
    by_cases h0 : k0 = k
    · simp [getKey, h0] at h
    · simp [getKey, h0] at h
      simp [eraseKey, h0, ih h]

theorem mem_of_getKey_eq_some {α : Type} {l : List (String × α)} {k : String} {v : α}
    (h : getKey k l = some v) : (k, v) ∈ l := by
  induction l with
  | nil => simp [getKey] at h
  | cons p rest ih =>
    obtain ⟨k0, v0⟩ := p
    by_cases h0 : k0 = k
    · subst h0
      simp [getKey] at h
      simp [h]
    · simp [getKey, h0] at h
      exact List.mem_cons_of_mem _ (ih h)

theorem mem_of_mem_eraseKey {α : Type} {l : List (String × α)} {k : String} {p : String × α}
    (h : p ∈ eraseKey k l) : p ∈ l := by
  induction l with
  | nil => simp [eraseKey] at h
  | cons q rest ih =>
    obtain ⟨k0, v0⟩ := q
    by_cases h0 : k0 = k
    · simp [eraseKey, h0] at h
      exact List.mem_cons_of_mem _ h
    · simp [eraseKey, h0] at h
      rcases h with h | h
      · simp [h]
      · exact List.mem_cons_of_mem _ (ih h)

theorem countCustom_callsEvents (cs : List (Nat × Frame)) : countCustom (callsEvents cs) = 0 := by
  simp only [countCustom, callsEvents]
  rw [List.countP_eq_zero]
  intro a ha
  rw [List.mem_map] at ha
  obtain ⟨c, _, rfl⟩ := ha
  simp

theorem countHandlerRan_callsEvents (p : String) (cs : List (Nat × Frame)) :
    countHandlerRan p (callsEvents cs) = 0 := by
  simp only [countHandlerRan, callsEvents]
  rw [List.countP_eq_zero]
  intro a ha
  rw [List.mem_map] at ha
  obtain ⟨c, _, rfl⟩ := ha
  simp

/-- C1 (amended): every delivered frame first emits the generic `message`
event; when a responder is registered under the frame's request id and
returns a boolean, the responder alone is invoked (`true` removes it,
`false` keeps it) and neither the purpose handler runs nor is
`customFrame` emitted; but when the responder returns no value it is kept
and dispatch falls through to the purpose-handler stage (and, absent a
registered responder, the frame goes to the handler stage directly). -/
theorem dispatch_order_spec (st : SessionState) (f : Frame) :
    (dispatchFrame st f).1.head? = some (DEvent.message f) ∧
    (∀ r cs b, getKey f.requestId st.responders = some r → r f = .ret cs (some b) →
      (dispatchFrame st f).1 =
        DEvent.message f :: DEvent.responderRan f.requestId :: callsEvents cs ∧
      countHandlerRan f.purpose (dispatchFrame st f).1 = 0 ∧
      countCustom (dispatchFrame st f).1 = 0 ∧
      (dispatchFrame st f).2.responders =
        (if b then eraseKey f.requestId st.responders else st.responders) ∧
      (dispatchFrame st f).2.handlers = st.handlers) ∧
    (∀ r cs, getKey f.requestId st.responders = some r → r f = .ret cs none →
      dispatchFrame st f =
        (DEvent.message f :: DEvent.responderRan f.requestId ::
          (callsEvents cs ++ (handlerStage st f).1), (handlerStage st f).2)) ∧
    (getKey f.requestId st.responders = none →
      dispatchFrame st f = (DEvent.message f :: (handlerStage st f).1, (handlerStage st f).2)) := by
  refine ⟨?_, ?_, ?_, ?_⟩
  · unfold dispatchFrame
    cases h : getKey f.requestId st.responders with
    | none => simp
    | some r =>
      cases hr : r f with
      | ret cs b =>
        cases b with
        | none => simp [hr]
        | some b => cases b <;> simp [hr]
      | thrown cs e => simp [hr]
  · intro r cs b hx hr
    have htr : (dispatchFrame st f).1 =
        DEvent.message f :: DEvent.responderRan f.requestId :: callsEvents cs := by
      cases b <;> simp [dispatchFrame, hx, hr]
    refine ⟨htr, ?_, ?_, ?_, ?_⟩
    · rw [htr]
      have hc := countHandlerRan_callsEvents f.purpose cs
      simp only [countHandlerRan, List.countP_cons] at hc ⊢
      simp [hc]
    · rw [htr]
      have hc := countCustom_callsEvents cs
      simp only [countCustom, List.countP_cons] at hc ⊢
      simp [hc]
    · cases b <;> simp [dispatchFrame, hx, hr]
    · cases b <;> simp [dispatchFrame, hx, hr]
  · intro r cs hx hr
    simp [dispatchFrame, hx, hr]
  · intro hx
    simp [dispatchFrame, hx]

/-- C1 witness: at a concrete session with a responder returning `true`,
the responder alone is invoked and then removed. -/
def respTrue : Behavior := fun _ => BRes.ret [] (some true)

def stW : SessionState := { responders := [("w1", respTrue)], handlers := [] }

def frameW : Frame := { purpose := "q", requestId := "w1", body := .null }

theorem dispatch_order_spec_witness :
    (dispatchFrame stW frameW).1 =
      DEvent.message frameW :: DEvent.responderRan frameW.requestId :: callsEvents [] ∧
    countHandlerRan frameW.purpose (dispatchFrame stW frameW).1 = 0 ∧
    countCustom (dispatchFrame stW frameW).1 = 0 ∧
    (dispatchFrame stW frameW).2.responders =
      (if true then eraseKey frameW.requestId stW.responders else stW.responders) ∧
    (dispatchFrame stW frameW).2.handlers = stW.handlers :=
  (dispatch_order_spec stW frameW).2.1 respTrue [] true rfl rfl

/-- Behavior of a responder that returns no value, as the chat-subscription
responder of `ServerSession.subscribeChat` does on every frame. -/
def respNone : Behavior := fun _ => BRes.ret [] none

def frameA : Frame := { purpose := "p", requestId := "r1", body := .null }

def stA : SessionState := { responders := [("r1", respNone)], handlers := [] }

/-- C1 counterexample: with a responder registered under the frame's
request id that returns no value, the frame is nevertheless also emitted
as `customFrame`, contradicting the dispatch exclusivity of the claim. -/
theorem dispatch_order_cex :
    (getKey frameA.requestId stA.responders).isSome = true ∧
    countCustom (dispatchFrame stA frameA).1 = 1 := ⟨rfl, rfl⟩

/-- C2 (amended): a responder or purpose handler that throws has the
exception emitted as the session `error` event, but the remaining dispatch
steps are not skipped: a throwing responder is kept and the frame falls
through to the purpose-handler stage, a throwing purpose handler is kept
and the frame is still emitted as `customFrame`; the dispatch loop
continues with later frames in both cases. -/
theorem dispatch_exception_spec (st : SessionState) (f : Frame) :
    (∀ r cs e, getKey f.requestId st.responders = some r → r f = .thrown cs e →
      dispatchFrame st f =
        (DEvent.message f :: DEvent.responderRan f.requestId ::
          (callsEvents cs ++ DEvent.errorEvent e :: (handlerStage st f).1),
          (handlerStage st f).2)) ∧
    (∀ h cs e, getKey f.purpose st.handlers = some h → h f = .thrown cs e →
      handlerStage st f =
        (DEvent.handlerRan f.purpose ::
          (callsEvents cs ++ [DEvent.errorEvent e, DEvent.customFrame f]), st)) ∧
    (∀ rest, dispatchFrames st (f :: rest) =
      ((dispatchFrame st f).1 ++ (dispatchFrames (dispatchFrame st f).2 rest).1,
        (dispatchFrames (dispatchFrame st f).2 rest).2)) := by
  refine ⟨?_, ?_, ?_⟩
  · intro r cs e hx hr
    simp [dispatchFrame, hx, hr]
  · intro h cs e hx hr
    simp [handlerStage, hx, hr]
  · intro rest
    simp [dispatchFrames]

/-- Behavior of a responder that throws while processing a frame. -/
def respThrow : Behavior := fun _ => BRes.thrown [] "boom"

def frameB : Frame := { purpose := "p2", requestId := "r2", body := .null }

def stB : SessionState := { responders := [("r2", respThrow)], handlers := [] }

/-- C2 witness: at a concrete session whose responder throws, the trace is
exactly message, responder invocation, error, then the handler stage. -/
theorem dispatch_exception_spec_witness :
    dispatchFrame stB frameB =
      (DEvent.message frameB :: DEvent.responderRan frameB.requestId ::
        (callsEvents [] ++ DEvent.errorEvent "boom" :: (handlerStage stB frameB).1),
        (handlerStage stB frameB).2) :=
  (dispatch_exception_spec stB frameB).1 respThrow [] "boom" rfl rfl

def frameB2 : Frame := { purpose := "p3", requestId := "r3", body := .null }

def stB2 : SessionState := { responders := [("r3", respThrow)], handlers := [] }

/-- C2 counterexample: a throwing responder emits `error`, yet the frame is
still emitted as `customFrame` afterwards, so the remaining dispatch steps
are not skipped. -/
theorem dispatch_exception_cex :
    countErrors (dispatchFrame stB2 frameB2).1 = 1 ∧
    countCustom (dispatchFrame stB2 frameB2).1 = 1 := ⟨rfl, rfl⟩

@[simp] theorem callsTo_nil (k : Nat) : callsTo k [] = [] := rfl

@[simp] theorem callsTo_append (k : Nat) (a b : List DEvent) :
    callsTo k (a ++ b) = callsTo k a ++ callsTo k b := List.filterMap_append a b _

@[simp] theorem callsTo_message (k : Nat) (f : Frame) (evs : List DEvent) :
    callsTo k (DEvent.message f :: evs) = callsTo k evs := rfl

@[simp] theorem callsTo_errorEvent (k : Nat) (e : String) (evs : List DEvent) :
    callsTo k (DEvent.errorEvent e :: evs) = callsTo k evs := rfl

@[simp] theorem callsTo_responderRan (k : Nat) (rid : String) (evs : List DEvent) :
    callsTo k (DEvent.responderRan rid :: evs) = callsTo k evs := rfl

@[simp] theorem callsTo_handlerRan (k : Nat) (p : String) (evs : List DEvent) :
    callsTo k (DEvent.handlerRan p :: evs) = callsTo k evs := rfl

@[simp] theorem callsTo_customFrame (k : Nat) (f : Frame) (evs : List DEvent) :
    callsTo k (DEvent.customFrame f :: evs) = callsTo k evs := rfl

@[simp] theorem callsTo_callback (k k' : Nat) (f : Frame) (evs : List DEvent) :
    callsTo k (DEvent.callback k' f :: evs) =
      (if k' = k then [f] else []) ++ callsTo k evs := by
  by_cases h : k' = k <;> simp [callsTo, List.filterMap_cons, h]

/-- Callback invocations recorded in a handler result. -/
def callsOf : BRes → List (Nat × Frame)
  | .ret cs _ => cs
  | .thrown cs _ => cs

/-- A handler never invokes the callback named `k`, on any frame. -/
def BehaviorAvoids (k : Nat) (b : Behavior) : Prop :=
  ∀ (f : Frame) (c : Nat × Frame), c ∈ callsOf (b f) → c.1 ≠ k

/-- No responder or purpose handler of the session invokes callback `k`. -/
def StateAvoids (k : Nat) (st : SessionState) : Prop :=
  (∀ p ∈ st.responders, BehaviorAvoids k p.2) ∧ (∀ p ∈ st.handlers, BehaviorAvoids k p.2)

theorem callsTo_callsEvents_of_avoid (k : Nat) (cs : List (Nat × Frame))
    (h : ∀ c ∈ cs, c.1 ≠ k) : callsTo k (callsEvents cs) = [] := by
  induction cs with
  | nil => rfl
  | cons c rest ih =>
    have hc := h c (by simp)
    simp [callsEvents, hc]
    exact ih fun c' hc' => h c' (by simp [hc'])

theorem handlerStage_avoid (k : Nat) (st : SessionState) (f : Frame) (h : StateAvoids k st) :
    callsTo k (handlerStage st f).1 = [] ∧ StateAvoids k (handlerStage st f).2 := by
  unfold handlerStage
  cases hx : getKey f.purpose st.handlers with
  | none => exact ⟨rfl, h⟩
  | some hb =>
    have hbav : BehaviorAvoids k hb := h.2 _ (mem_of_getKey_eq_some hx)
    have hcs : ∀ cs : List (Nat × Frame), cs = callsOf (hb f) →
        callsTo k (callsEvents cs) = [] := by
      intro cs hcseq
      exact callsTo_callsEvents_of_avoid k cs fun c hc => hbav f c (hcseq ▸ hc)
    have herase : StateAvoids k { st with handlers := eraseKey f.purpose st.handlers } :=
      ⟨h.1, fun p hp => h.2 p (mem_of_mem_eraseKey hp)⟩
    cases hr : hb f with
    | ret cs r =>
      have hz := hcs cs (by rw [hr]; rfl)
      cases r with
      | none =>
        simp only [hr]
        exact ⟨by simp [hz], h⟩
      | some b =>
        cases b with
        | false =>
          simp only [hr]
          exact ⟨by simp [hz], h⟩
        | true =>
          simp only [hr]
          exact ⟨by simp [hz], herase⟩
    | thrown cs e =>
      have hz := hcs cs (by rw [hr]; rfl)
      simp only [hr]
      exact ⟨by simp [hz], h⟩

theorem dispatch_avoid (k : Nat) (st : SessionState) (f : Frame) (h : StateAvoids k st) :
    callsTo k (dispatchFrame st f).1 = [] ∧ StateAvoids k (dispatchFrame st f).2 := by
  have hs := handlerStage_avoid k st f h
  unfold dispatchFrame
  cases hx : getKey f.requestId st.responders with
  | none => exact ⟨by simp [hs.1], hs.2⟩
  | some r =>
    have hrav : BehaviorAvoids k r := h.1 _ (mem_of_getKey_eq_some hx)
    have hcs : ∀ cs : List (Nat × Frame), cs = callsOf (r f) →
        callsTo k (callsEvents cs) = [] := by
      intro cs hcseq
      exact callsTo_callsEvents_of_avoid k cs fun c hc => hrav f c (hcseq ▸ hc)
    have herase : StateAvoids k { st with responders := eraseKey f.requestId st.responders } :=
      ⟨fun p hp => h.1 p (mem_of_mem_eraseKey hp), h.2⟩
    cases hr : r f with
    | ret cs rr =>
      have hz := hcs cs (by rw [hr]; rfl)
      cases rr with
      | none =>
        simp only [hr]
        exact ⟨by simp [hz, hs.1], hs.2⟩
      | some b =>
        cases b with
        | false =>
          simp only [hr]
          exact ⟨by simp [hz], h⟩
        | true =>
          simp only [hr]
          exact ⟨by simp [hz], herase⟩
    | thrown cs e =>
      have hz := hcs cs (by rw [hr]; rfl)
      simp only [hr]
      exact ⟨by simp [hz, hs.1], hs.2⟩

theorem isUUIDv4_ne_sentinel {s : String} (h : isUUIDv4 s = true) : s ≠ sentinelUUID := by
  intro he
  subst he
  exact absurd h (by decide)

/-- C3: `sendCommand` sends exactly one `commandRequest` frame whose
`body.commandLine` is the command line (an array is joined with single
spaces) under a freshly generated non-sentinel UUIDv4 request id, and the
registered responder invokes the callback exactly once, with the matching
`commandResponse` frame (whose request id is the request's), after which
the responder is removed and the callback can never be invoked again. The
request id and its UUIDv4 shape stand for the `randomUUID()` result;
freshness is the hypothesis that the id is not yet registered, and the
ambient session must not itself call the callback elsewhere. -/
theorem sendCommand_spec (st : SessionState) (version : Int) (uuid : String)
    (command : CommandLineArg) (k : Nat)
    (hfresh : getKey uuid st.responders = none)
    (huuid : isUUIDv4 uuid = true)
    (havoid : StateAvoids k st) :
    uuid ≠ sentinelUUID ∧
    sendCommand st version uuid command (some k) =
      .ok ([sendCommandRaw version uuid command],
        { st with responders := st.responders ++ [(uuid, commandResponder k)] }) ∧
    (sendCommandRaw version uuid command).purpose = "commandRequest" ∧
    (sendCommandRaw version uuid command).requestId = uuid ∧
    (sendCommandRaw version uuid command).body.getField "commandLine" =
      some (.str (resolveCommandLine command)) ∧
    (∀ rf : Frame, rf.purpose = "commandResponse" → rf.requestId = uuid →
      callsTo k (dispatchFrame
        { st with responders := st.responders ++ [(uuid, commandResponder k)] } rf).1 = [rf] ∧
      (dispatchFrame
        { st with responders := st.responders ++ [(uuid, commandResponder k)] } rf).2 = st ∧
      (∀ g : Frame, callsTo k (dispatchFrame
        (dispatchFrame
          { st with responders := st.responders ++ [(uuid, commandResponder k)] } rf).2 g).1 = [])) := by
  refine ⟨isUUIDv4_ne_sentinel huuid, ?_, rfl, rfl, rfl, ?_⟩
  · simp [sendCommand, setResponser, hfresh]
  · intro rf hp hid
    have hlook : getKey rf.requestId (st.responders ++ [(uuid, commandResponder k)]) =
        some (commandResponder k) := by
      rw [hid]
      rw [getKey_append_of_none st.responders _ uuid hfresh]
      simp [getKey]
    have hresp : commandResponder k rf = BRes.ret [(k, rf)] (some true) := by
      simp [commandResponder, hp]
    have hstate : dispatchFrame
        { st with responders := st.responders ++ [(uuid, commandResponder k)] } rf =
        (DEvent.message rf :: DEvent.responderRan rf.requestId :: callsEvents [(k, rf)],
          st) := by
      unfold dispatchFrame
      simp only [hlook, hresp]
      have herase : eraseKey rf.requestId (st.responders ++ [(uuid, commandResponder k)]) =
          st.responders := by
        rw [hid]
        exact eraseKey_append_of_none st.responders uuid _ hfresh
      simp [herase]
    refine ⟨?_, ?_, ?_⟩
    · rw [hstate]
      simp [callsEvents]
    · rw [hstate]
    · intro g
      rw [hstate]
      exact (dispatch_avoid k st g havoid).1

def uuidC3 : String := "3aa08df4-b21c-4d39-9b3e-0f72c1a64f2b"

def stC3 : SessionState := { responders := [], handlers := [] }

/-- C3 witness: the send and exactly-once response delivery at a concrete
session, command line and request id. -/
theorem sendCommand_spec_witness :
    uuidC3 ≠ sentinelUUID ∧
    sendCommand stC3 1 uuidC3 (.str "/say Hi") (some 0) =
      .ok ([sendCommandRaw 1 uuidC3 (.str "/say Hi")],
        { stC3 with responders := stC3.responders ++ [(uuidC3, commandResponder 0)] }) ∧
    (sendCommandRaw 1 uuidC3 (.str "/say Hi")).purpose = "commandRequest" ∧
    (sendCommandRaw 1 uuidC3 (.str "/say Hi")).requestId = uuidC3 ∧
    (sendCommandRaw 1 uuidC3 (.str "/say Hi")).body.getField "commandLine" =
      some (.str (resolveCommandLine (.str "/say Hi"))) ∧
    (∀ rf : Frame, rf.purpose = "commandResponse" → rf.requestId = uuidC3 →
      callsTo 0 (dispatchFrame
        { stC3 with responders := stC3.responders ++ [(uuidC3, commandResponder 0)] } rf).1 = [rf] ∧
      (dispatchFrame
        { stC3 with responders := stC3.responders ++ [(uuidC3, commandResponder 0)] } rf).2 = stC3 ∧
      (∀ g : Frame, callsTo 0 (dispatchFrame
        (dispatchFrame
          { stC3 with responders := stC3.responders ++ [(uuidC3, commandResponder 0)] } rf).2 g).1 = [])) :=
  sendCommand_spec stC3 1 uuidC3 (.str "/say Hi") 0 rfl (by decide)
    ⟨by simp [stC3], by simp [stC3]⟩

@[simp] theorem gateTruthy_some_true : gateTruthy (some true) = true := rfl

@[simp] theorem gateTruthy_some_false : gateTruthy (some false) = false := rfl

@[simp] theorem gateTruthy_none : gateTruthy none = false := rfl

theorem gate_applySubOp (g : GateMap) (name : String) (op : SubOp) :
    gateTruthy (getKey name (applySubOp g op)) = specStep name (gateTruthy (getKey name g)) op := by
  cases op with
  | sub n =>
    by_cases hn : n = name
    · subst hn
      cases hg : gateTruthy (getKey n g) with
      | true => simp [applySubOp, clientSubscribeStep, hg, specStep]
      | false => simp [applySubOp, clientSubscribeStep, hg, specStep, getKey_setKey_self]
    · cases hg : gateTruthy (getKey n g) with
      | true => simp [applySubOp, clientSubscribeStep, hg, specStep, hn]
      | false =>
        simp [applySubOp, clientSubscribeStep, hg, specStep, hn,
          getKey_setKey_ne g n name true (Ne.symm hn)]
  | unsub n =>
    by_cases hn : n = name
    · subst hn
      cases hg : gateTruthy (getKey n g) with
      | true => simp [applySubOp, clientUnsubscribeStep, hg, specStep, getKey_setKey_self]
      | false => simp [applySubOp, clientUnsubscribeStep, hg, specStep]
    · cases hg : gateTruthy (getKey n g) with
      | true =>
        simp [applySubOp, clientUnsubscribeStep, hg, specStep, hn,
          getKey_setKey_ne g n name false (Ne.symm hn)]
      | false => simp [applySubOp, clientUnsubscribeStep, hg, specStep, hn]

theorem gate_foldl (ops : List SubOp) : ∀ (g : GateMap) (name : String),
    gateTruthy (getKey name (ops.foldl applySubOp g)) =
      ops.foldl (specStep name) (gateTruthy (getKey name g)) := by
  induction ops with
  | nil => intro g name; rfl
  | cons op rest ih =>
    intro g name
    simp only [List.foldl_cons]
    rw [ih, gate_applySubOp]

/-- C4: the client transmits `publishEvent(name, body)` exactly when the
processed history of inbound subscription-control frames contains a
subscribe for `name` with no unsubscribe for `name` after it; the gate
handler emits the `subscribe` event only on a false-to-true transition
(redundant subscribes are idempotent and emit nothing), sets the gate
true, and the `unsubscribe` handler symmetrically emits only on a
true-to-false transition and sets the gate false. -/
theorem publishEvent_gate_spec :
    (∀ (version : Int) (ops : List SubOp) (name : String) (body : List (String × JVal)),
      publishEvent version (runSubOps ops) name body =
        (if specSubscribed ops name then [sendEvent version name body] else [])) ∧
    (∀ (g : GateMap) (name : String),
      (clientSubscribeStep g name).1 =
        (if gateTruthy (getKey name g) then [] else [ClientEvent.subscribeEvt name]) ∧
      gateTruthy (getKey name (clientSubscribeStep g name).2) = true) ∧
    (∀ (g : GateMap) (name : String),
      (clientUnsubscribeStep g name).1 =
        (if gateTruthy (getKey name g) then [ClientEvent.unsubscribeEvt name] else []) ∧
      gateTruthy (getKey name (clientUnsubscribeStep g name).2) = false) := by
  refine ⟨?_, ?_, ?_⟩
  · intro version ops name body
    have hg : gateTruthy (getKey name (runSubOps ops)) = specSubscribed ops name := by
      have h2 := gate_foldl ops [] name
      rw [runSubOps, specSubscribed, h2]
      rfl
    cases h : specSubscribed ops name with
    | true => simp [publishEvent, hg, h]
    | false => simp [publishEvent, hg, h]
  · intro g name
    cases h : gateTruthy (getKey name g) with
    | true => simp [clientSubscribeStep, h]
    | false => simp [clientSubscribeStep, h, getKey_setKey_self]
  · intro g name
    cases h : gateTruthy (getKey name g) with
    | true => simp [clientUnsubscribeStep, h, getKey_setKey_self]
    | false => simp [clientUnsubscribeStep, h]

/-- C5: with no prior listeners for an event name, subscribing a first
listener sends exactly one `subscribe` frame, subscribing a second
distinct listener sends nothing, unsubscribing the first listener while
the second remains sends nothing, and unsubscribing the last listener
sends exactly one `unsubscribe` frame. -/
theorem subscribe_unsubscribe_frames (version : Int) (t : ListenerTable) (name : String)
    (l1 l2 : Nat) (hfresh : getKey name t = none) (hne : l1 ≠ l2) :
    (subscribe version t name l1).1 = [subscribeFrame version name] ∧
    (subscribe version (subscribe version t name l1).2 name l2).1 = [] ∧
    (unsubscribe version
      (subscribe version (subscribe version t name l1).2 name l2).2 name l1).1 = [] ∧
    (unsubscribe version
      (unsubscribe version
        (subscribe version (subscribe version t name l1).2 name l2).2 name l1).2 name l2).1 =
      [unsubscribeFrame version name] := by
  have h1 : subscribe version t name l1 =
      ([subscribeFrame version name], setKey t name [l1]) := by
    simp [subscribe, hfresh]
  have hk1 : getKey name (setKey t name [l1]) = some [l1] := getKey_setKey_self t name [l1]
  have h2 : subscribe version (setKey t name [l1]) name l2 =
      ([], setKey (setKey t name [l1]) name [l1, l2]) := by
    simp [subscribe, hk1, insertSet, Ne.symm hne]
  have hk2 : getKey name (setKey (setKey t name [l1]) name [l1, l2]) = some [l1, l2] :=
    getKey_setKey_self _ name [l1, l2]
  have h3 : unsubscribe version (setKey (setKey t name [l1]) name [l1, l2]) name l1 =
      ([], setKey (setKey (setKey t name [l1]) name [l1, l2]) name [l2]) := by
    simp [unsubscribe, hk2]
  have hk3 : getKey name (setKey (setKey (setKey t name [l1]) name [l1, l2]) name [l2]) =
      some [l2] := getKey_setKey_self _ name [l2]
  have h4 : (unsubscribe version
      (setKey (setKey (setKey t name [l1]) name [l1, l2]) name [l2]) name l2).1 =
      [unsubscribeFrame version name] := by
    simp [unsubscribe, hk3]
  rw [h1]
  refine ⟨rfl, ?_, ?_, ?_⟩
  · rw [h2]
  · rw [h2, h3]
  · rw [h2, h3]
    exact h4

/-- C5 witness: the four-step frame sequence at a concrete table, event
name and pair of distinct listeners. -/
theorem subscribe_unsubscribe_frames_witness :
    (subscribe 1 [] "TestEventName" 1).1 = [subscribeFrame 1 "TestEventName"] ∧
    (subscribe 1 (subscribe 1 [] "TestEventName" 1).2 "TestEventName" 2).1 = [] ∧
    (unsubscribe 1
      (subscribe 1 (subscribe 1 [] "TestEventName" 1).2 "TestEventName" 2).2 "TestEventName" 1).1 = [] ∧
    (unsubscribe 1
      (unsubscribe 1
        (subscribe 1 (subscribe 1 [] "TestEventName" 1).2 "TestEventName" 2).2 "TestEventName" 1).2
      "TestEventName" 2).1 = [unsubscribeFrame 1 "TestEventName"] :=
  subscribe_unsubscribe_frames 1 [] "TestEventName" 1 2 rfl (by decide)

theorem xor_xor_cancel (p o : Nat) : (p ^^^ o) ^^^ o = p := by
  rw [Nat.xor_assoc, Nat.xor_self, Nat.xor_zero]

theorem cfb8_roundtrip (B : List Nat → List Nat) (ps : List Nat) :
    ∀ reg : List Nat, cfb8DecBytes B reg (cfb8EncBytes B reg ps) = ps := by
  induction ps with
  | nil => intro reg; rfl
  | cons p ps ih =>
    intro reg
    simp [cfb8EncBytes, cfb8DecBytes, xor_xor_cancel, ih]

theorem cfb_roundtrip (B : List Nat → List Nat) (ps : List Nat) :
    ∀ reg pend : List Nat, cfbDecBytes B reg pend (cfbEncBytes B reg pend ps) = ps := by
  induction ps with
  | nil => intro reg pend; rfl
  | cons p ps ih =>
    intro reg pend
    by_cases h : pend.length = 15
    · simp [cfbEncBytes, cfbDecBytes, h, xor_xor_cancel, ih]
    · simp [cfbEncBytes, cfbDecBytes, h, xor_xor_cancel, ih]

/-- C6: for every byte sequence and every cipher mode (`cfb8`, `cfb` and
its alias `cfb128`), decrypting the encryption of the bytes returns the
bytes, when cipher and decipher are initialised by `initializeCipher` with
the same symmetric key `hash(salt concatenated with the shared secret)`
and the IV equal to the first 16 bytes of that key; the hash and the
AES-256 block function of the crypto runtime are abstract parameters. -/
theorem encryption_roundtrip (H : List Nat → List Nat) (AES : List Nat → List Nat → List Nat)
    (mode : EncryptionMode) (secretKey salt bytes : List Nat) :
    decryptBytes (initializeCipher H AES mode secretKey salt)
      (encryptBytes (initializeCipher H AES mode secretKey salt) bytes) = bytes := by
  cases mode <;>
    simp [initializeCipher, encryptBytes, decryptBytes, usesCfb8, cfb8_roundtrip, cfb_roundtrip]

/-- C7: the response callback of the awaited command facade rejects with an
error whose message is `body.statusMessage` exactly when `body.statusCode`
is present and its bit under the mask `0x80000000` is set; in every other
case it resolves with the response frame. -/
theorem command_error_convention (f : Frame) :
    (appCommandCallback f = CmdOutcome.rejectError (getStatusMessage f.body) ↔
      (∃ n : Int, getStatusCode f.body = some n ∧ (toUInt32 n).testBit 31 = true)) ∧
    (¬ (∃ n : Int, getStatusCode f.body = some n ∧ (toUInt32 n).testBit 31 = true) →
      appCommandCallback f = CmdOutcome.resolve f) := by
  have hzero : (toUInt32 0).testBit 31 = false := by decide
  constructor
  · constructor
    · intro h
      cases hc : getStatusCode f.body with
      | none => simp [appCommandCallback, hc] at h
      | some n =>
        by_cases hn : n = 0
        · subst hn
          simp [appCommandCallback, hc] at h
        · cases hb : (toUInt32 n).testBit 31 with
          | false => simp [appCommandCallback, hc, hn, hb] at h
          | true => exact ⟨n, rfl, hb⟩
    · rintro ⟨n, hc, hb⟩
      have hn : n ≠ 0 := by
        intro he
        subst he
        rw [hzero] at hb
        exact Bool.false_ne_true hb
      simp [appCommandCallback, hc, hn, hb]
  · intro h
    cases hc : getStatusCode f.body with
    | none => simp [appCommandCallback, hc]
    | some n =>
      by_cases hn : n = 0
      · subst hn
        simp [appCommandCallback, hc]
      · cases hb : (toUInt32 n).testBit 31 with
        | false => simp [appCommandCallback, hc, hn, hb]
        | true => exact absurd ⟨n, hc, hb⟩ h

def frameC7 : Frame :=
  { purpose := "commandResponse"
    requestId := "c7"
    body := .obj [("statusCode", .num (2 ^ 31)), ("statusMessage", .str "test")] }

/-- C7 witness: a concrete response whose status code has the high bit set
is rejected with its status message. -/
theorem command_error_convention_witness :
    appCommandCallback frameC7 = CmdOutcome.rejectError (getStatusMessage frameC7.body) :=
  (command_error_convention frameC7).1.mpr ⟨2 ^ 31, rfl, by decide⟩

theorem getKey_eq_none_of_not_mem {α : Type} (l : List (String × α)) (k : String)
    (h : k ∉ l.map Prod.fst) : getKey k l = none := by
  induction l with
  | nil => rfl
  | cons p rest ih =>
    obtain ⟨k0, v0⟩ := p
    simp only [List.map_cons, List.mem_cons] at h
    push_neg at h
    simp [getKey, Ne.symm h.1, ih h.2]

theorem getKey_eraseKey_self {α : Type} (l : List (String × α)) (k : String)
    (hnd : (l.map Prod.fst).Nodup) : getKey k (eraseKey k l) = none := by
  induction l with
  | nil => rfl
  | cons p rest ih =>
    obtain ⟨k0, v0⟩ := p
    simp only [List.map_cons, List.nodup_cons] at hnd
    by_cases h0 : k0 = k
    · subst h0
      simp only [eraseKey, if_pos rfl]
      exact getKey_eq_none_of_not_mem rest k0 hnd.1
    · simp [eraseKey, h0, getKey, ih hnd.2]

/-- C8 (amended): `cancelCommandRequest` removes the pending responder, and
a `commandResponse` frame arriving later with the cancelled request id
causes no invocation of the command callback; but the late frame does not
fall through to `customFrame`: it is consumed by the `commandResponse`
purpose handler that the `ServerSession` constructor always registers
(which emits the session-level `commandResponse` event and returns
`false`). -/
theorem cancel_late_response_spec (st : SessionState) (uuid : String) (k : Nat) (b : Behavior)
    (hnd : (st.responders.map Prod.fst).Nodup)
    (hresp : getKey uuid st.responders = some b)
    (hhandler : getKey "commandResponse" st.handlers = some commandResponseHandler) :
    getKey uuid (cancelCommandRequest st uuid).responders = none ∧
    (∀ rf : Frame, rf.purpose = "commandResponse" → rf.requestId = uuid →
      callsTo k (dispatchFrame (cancelCommandRequest st uuid) rf).1 = [] ∧
      countHandlerRan "commandResponse" (dispatchFrame (cancelCommandRequest st uuid) rf).1 = 1 ∧
      countCustom (dispatchFrame (cancelCommandRequest st uuid) rf).1 = 0) := by
  have hgone : getKey uuid (cancelCommandRequest st uuid).responders = none :=
    getKey_eraseKey_self st.responders uuid hnd
  refine ⟨hgone, ?_⟩
  intro rf hp hid
  have htr : (dispatchFrame (cancelCommandRequest st uuid) rf).1 =
      [DEvent.message rf, DEvent.handlerRan "commandResponse"] := by
    have hgone2 : getKey uuid (eraseKey uuid st.responders) = none := hgone
    unfold dispatchFrame handlerStage
    rw [hid]
    simp [hgone2, cancelCommandRequest, hp, hhandler, commandResponseHandler, callsEvents]
  rw [htr]
  exact ⟨rfl, rfl, rfl⟩

def st8 : SessionState :=
  { responders := [("u1", commandResponder 7)]
    handlers := [("commandResponse", commandResponseHandler)] }

def rf8 : Frame := { purpose := "commandResponse", requestId := "u1", body := .null }

/-- C8 witness: the cancelled request's late response at a concrete server
session invokes no callback and is consumed by the `commandResponse`
purpose handler. -/
theorem cancel_late_response_spec_witness :
    getKey "u1" (cancelCommandRequest st8 "u1").responders = none ∧
    (∀ rf : Frame, rf.purpose = "commandResponse" → rf.requestId = "u1" →
      callsTo 7 (dispatchFrame (cancelCommandRequest st8 "u1") rf).1 = [] ∧
      countHandlerRan "commandResponse" (dispatchFrame (cancelCommandRequest st8 "u1") rf).1 = 1 ∧
      countCustom (dispatchFrame (cancelCommandRequest st8 "u1") rf).1 = 0) :=
  cancel_late_response_spec st8 "u1" 7 (commandResponder 7) (by simp [st8]) rfl rfl

def st8c : SessionState :=
  { responders := [("u2", commandResponder 9)]
    handlers := [("commandResponse", commandResponseHandler)] }

def rf8c : Frame := { purpose := "commandResponse", requestId := "u2", body := .null }

/-- C8 counterexample: on a server session (whose constructor always
registers the `commandResponse` purpose handler), a late response to a
cancelled request produces zero `customFrame` emissions, contradicting the
claim that the frame falls through to the `customFrame` channel. -/
theorem cancel_late_response_cex :
    getKey "u2" (cancelCommandRequest st8c "u2").responders = none ∧
    callsTo 9 (dispatchFrame (cancelCommandRequest st8c "u2") rf8c).1 = [] ∧
    countCustom (dispatchFrame (cancelCommandRequest st8c "u2") rf8c).1 = 0 :=
  ⟨rfl, rfl, rfl⟩

/-- C9: `enableEncryption` returns `false`, sends no frame and leaves the
state untouched whenever a key exchange is pending or encryption is
already active; and encryption activity is monotonic under the role
operations: once active it stays active across any sequence of
encryption-touching operations. -/
theorem enableEncryption_monotonic (st : EncState) (version : Int)
    (requestId pub salt mode : String) :
    (st.exchangingKey = true ∨ st.encryptionActive = true →
      enableEncryption st version requestId pub salt mode = (false, [], st)) ∧
    (∀ ops : List EncOp, st.encryptionActive = true →
      (ops.foldl encStep st).encryptionActive = true) := by
  constructor
  · intro h
    rcases h with h | h <;> simp [enableEncryption, h]
  · intro ops
    induction ops generalizing st with
    | nil => intro h; exact h
    | cons op rest ih =>
      intro h
      simp only [List.foldl_cons]
      apply ih
      cases op with
      | enable v rid p s m => simp [encStep, enableEncryption, h]
      | complete => rfl
      | unrelated => exact h

/-- C9 witness: at an already-active concrete state, a further
`enableEncryption` returns `false` with no frames and no state change, and
activity survives a sequence of further operations. -/
theorem enableEncryption_monotonic_witness :
    enableEncryption ⟨false, true⟩ 1 "r9" "pub" "salt" "cfb8" = (false, [], ⟨false, true⟩) ∧
    (([EncOp.enable 1 "r9" "pub" "salt" "cfb8", EncOp.unrelated,
        EncOp.enable 0x1000000 "r9b" "pub" "salt" "cfb"].foldl encStep
      ⟨false, true⟩).encryptionActive = true) :=
  ⟨(enableEncryption_monotonic ⟨false, true⟩ 1 "r9" "pub" "salt" "cfb8").1 (Or.inr rfl),
   (enableEncryption_monotonic ⟨false, true⟩ 1 "r9" "pub" "salt" "cfb8").2 _ rfl⟩

/-- C10: an inbound `commandRequest` frame is dispatched as the `command`
event exactly when `body.commandLine` is truthy (in particular an absent
or empty-string command line is dispatched as `commandLegacy`), and the
`handleEncryptionHandshake` closure of `commandLegacy` frames always
throws, so such a frame can never complete the legacy encryption
handshake. -/
theorem clientCommandDispatch_spec (body : JVal) :
    (jsTruthy (body.getField "commandLine") = true →
      clientCommandDispatch body = .commandEvt ((body.getField "commandLine").getD .null)) ∧
    (jsTruthy (body.getField "commandLine") = false →
      clientCommandDispatch body = .commandLegacyEvt) ∧
    (body.getField "commandLine" = none ∨ body.getField "commandLine" = some (.str "") →
      clientCommandDispatch body = .commandLegacyEvt) ∧
    (∀ b : Bool, legacyHandshake ≠ .ok b) := by
  refine ⟨?_, ?_, ?_, ?_⟩
  · intro h
    simp [clientCommandDispatch, h]
  · intro h
    simp [clientCommandDispatch, h]
  · intro h
    rcases h with h | h <;> simp [clientCommandDispatch, jsTruthy, h]
  · intro b
    simp [legacyHandshake]

def bodyC10 : JVal := .obj [("name", .str "legacy"), ("overload", .str "default")]

def bodyC10b : JVal := .obj [("commandLine", .str "")]

/-- C10 witness: a body without a command line and a body with the empty
command line are both dispatched as `commandLegacy`, whose handshake
closure can never return. -/
theorem clientCommandDispatch_spec_witness :
    clientCommandDispatch bodyC10 = .commandLegacyEvt ∧
    clientCommandDispatch bodyC10b = .commandLegacyEvt ∧
    legacyHandshake ≠ .ok true :=
  ⟨(clientCommandDispatch_spec bodyC10).2.2.1 (Or.inl rfl),
   (clientCommandDispatch_spec bodyC10b).2.2.1 (Or.inr rfl),
   (clientCommandDispatch_spec bodyC10).2.2.2 true⟩
